import Mathlib

/-!
Verification of the caprid rolling video buffer against its specification.

Shallow embedding conventions:
* Timestamps are absolute whole seconds (`Nat`); the Python code works with
  `datetime` at second resolution (filenames encode `YYYYmmdd_HHMMSS`), so the
  mapping to seconds-since-epoch is injective and order/arithmetic preserving.
* A directory listing of the buffer is abstracted to the list of the files that
  match the `segment_*.mp4` pattern, each represented by the result of parsing
  its embedded timestamp: `some t` for a well-formed name, `none` for a file
  whose timestamp does not parse (`datetime.strptime` raises `ValueError`).
  The order of the list is the sorted-filename order produced by
  `RollingBuffer._list_segments`.
* External effects are oracles: `ffmpegOk : Bool` is the exit status of the
  ffmpeg invocation, `fileSize : Option Nat` is the on-disk size of the output
  (`none` = the file does not exist).
* `Python`'s `list.sort()` is embedded as `List.insertionSort (· ≤ ·)`
  (a stable ascending sort, like Python's).
-/

namespace Caprid

/-- `RollingBuffer.get_segment_times` (rolling_buffer.py:32-38): a list
comprehension that calls `datetime.strptime` on every listed segment file with
no `try`/`except`; the first malformed name raises `ValueError` out of the
whole call.  `dir` is the parse result of each listed `segment_*.mp4` file. -/
def getSegmentTimes : List (Option Nat) → Except String (List Nat)
  | [] => .ok []
  | none :: _ => .error "ValueError: time data does not match format"
  | some t :: rest => (getSegmentTimes rest).map (fun ts => t :: ts)

/-- The segment-scanning loop of `RollingBuffer.extract_clip`
(rolling_buffer.py:55-64): parse each listed filename inside
`try`/`except` (malformed names are skipped via `continue`) and keep the
start times whose segment `[t, t+segdur)` overlaps the window
`[start, start+dur)` (`seg_end > start_time and seg_start < end_time`). -/
def rbScan (segdur start dur : Nat) : List (Option Nat) → List Nat
  | [] => []
  | none :: rest => rbScan segdur start dur rest
  | some t :: rest =>
    if start < t + segdur ∧ t < start + dur then t :: rbScan segdur start dur rest
    else rbScan segdur start dur rest

/-- `RollingBuffer.extract_clip` (rolling_buffer.py:40-88).  Returns the
result (`.ok (start, dur)` stands for the output clip of the requested window,
`.error` for a raised `RuntimeError`) paired with whether the concat manifest
`segments_to_concat.txt` exists in the buffer directory afterwards.

Notes kept from the source:
* the guard on line 66 is `not needed_segments or (needed_segments[0] >
  end_time.strftime("%Y%m%d_%H%M%S"))`; the second disjunct compares an
  absolute path (starting with `/`) against a digit string, and `"/" < "0"`
  in ASCII, so it is always `False` — only emptiness triggers the raise;
* the manifest is written after that check and is never removed, neither on
  ffmpeg success nor on ffmpeg failure. -/
def rbExtractClip (dir : List (Option Nat)) (segdur start dur : Nat)
    (ffmpegOk : Bool) : Except String (Nat × Nat) × Bool :=
  match rbScan segdur start dur dir with
  | [] => (.error "Requested time is not in buffer window.", false)
  | _ :: _ =>
    if ffmpegOk then (.ok (start, dur), true)
    else (.error "ffmpeg failed", true)

/-- The eviction loop of `RollingBuffer._cleanup_old_segments`
(rolling_buffer.py:100-114): walk the segments newest-first (`rev` is the
sorted list reversed), add `segdur` to the running total for each one, keep
the segment while the total is still `≤ bufdur`, delete it otherwise.
Returns `(kept, deleted)`, each in newest-first order. -/
def cleanupLoop (segdur bufdur : Nat) : List Nat → Nat → List Nat × List Nat
  | [], _ => ([], [])
  | t :: rest, total =>
    let total' := total + segdur
    let r := cleanupLoop segdur bufdur rest total'
    if total' ≤ bufdur then (t :: r.1, r.2) else (r.1, t :: r.2)

/-- `RollingBuffer._cleanup_old_segments` (rolling_buffer.py:90-114):
list the segments via `get_segment_times` (an unguarded parse that can raise),
return immediately when there are none, otherwise sort ascending and run the
newest-first budget loop.  Result: `(kept, deleted)` start times. -/
def cleanupPass (dir : List (Option Nat)) (segdur bufdur : Nat) :
    Except String (List Nat × List Nat) := do
  let times ← getSegmentTimes dir
  if times.isEmpty then return ([], [])
  let sorted := List.insertionSort (· ≤ ·) times
  return cleanupLoop segdur bufdur sorted.reverse 0

/-- The cadence logic of `RollingBuffer.start_recording`
(rolling_buffer.py:137-157).  Each iteration takes `start_time = now`, writes
frames for `elapsed` time units, then sleeps `segdur - elapsed` only when
`elapsed < segdur` (there is no compensation for an overrun).  Given the list
of per-iteration write times, this is the wall-clock time elapsed from stream
start after those iterations, i.e. the start time of the next segment
(cleanup time is idealized to zero, which is charitable to the spec). -/
def segmentStartAfter (segdur : Nat) : List Nat → Nat
  | [] => 0
  | e :: rest => (if e < segdur then segdur else e) + segmentStartAfter segdur rest

/-- `StreamHandler._write_historical_frames` (stream_handler.py:108-113): walk
the ring in order and write every frame whose timestamp `t` satisfies
`start ≤ t ≤ endT`.  Frames are `(timestamp, frameId)` pairs; the returned
list is the sequence of frame ids handed to `writer.write`, in ring order. -/
def writeHistoricalFrames (start endT : Nat) : List (Nat × Nat) → List Nat
  | [] => []
  | (t, f) :: rest =>
    if start ≤ t ∧ t ≤ endT then f :: writeHistoricalFrames start endT rest
    else writeHistoricalFrames start endT rest

/-- `StreamHandler.start_segment_recording` (stream_handler.py:70-106):
clamp a future `end_time` to `now` (logging one warning), fail (`None`) when
there is no current frame or the writer cannot be opened, otherwise write the
buffered frames in the clamped window and succeed.  The `some` payload is
(frames written, effective end time, whether the clamp warning was logged). -/
def startSegmentRecording (ring : List (Nat × Nat)) (start endT now : Nat)
    (haveFrame writerOk : Bool) : Option (List Nat × Nat × Bool) :=
  let warned := decide (now < endT)
  let endE := if now < endT then now else endT
  if haveFrame = false then none
  else if writerOk = false then none
  else some (writeHistoricalFrames start endE ring, endE, warned)

/-- The back-stepping loop of `scripts/extract_clip.py:72-75`:
`while start_time not in segment_start_set and start_time >= sorted_starts[0]:
start_time -= timedelta(seconds=segment_duration)`.  `fuel` bounds the number
of iterations; with `segdur ≥ 1` the Python loop performs at most `t` steps
before dropping below `earliest` (timestamps are nonnegative), so a caller
passing `fuel = t + 1` reproduces it exactly. -/
def snapLoop (set : List Nat) (earliest segdur : Nat) :
    Nat → Nat → Option Nat
  | 0, t => if t ∈ set then some t else none
  | f + 1, t =>
    if t ∈ set then some t
    else if t < earliest then none
    else snapLoop set earliest segdur f (t - segdur)

/-- Start-time snapping of `scripts/extract_clip.py:68-81`: step the requested
start back by `segdur` at a time until it hits an existing segment start
(`some`) or falls before the earliest one (`none`, the "No available segment
at or before requested start time" error). -/
def snapStart (set : List Nat) (earliest segdur t : Nat) : Option Nat :=
  snapLoop set earliest segdur (t + 1) t

/-- The segments needed for a window, `scripts/extract_clip.py:84-87`: the
sorted segment starts whose `[s, s+segdur)` interval overlaps
`[start, start+dur)`. -/
def neededSegments (segs : List Nat) (segdur start dur : Nat) : List Nat :=
  (List.insertionSort (· ≤ ·) segs).filter
    (fun s => decide (start < s + segdur ∧ s < start + dur))

/-- The coverage check of `scripts/extract_clip.py:88-100` as a Boolean:
there is at least one needed segment, the first one starts at or before the
window start, and the last one ends at or after the window end.  (Gaps
strictly between the first and last needed segment are not examined.) -/
def coverageOk (segs : List Nat) (segdur start dur : Nat) : Bool :=
  match neededSegments segs segdur start dur with
  | [] => false
  | first :: rest =>
    decide (first ≤ start ∧ start + dur ≤ (first :: rest).getLastD 0 + segdur)

/-- Outcome of one run of the `scripts/extract_clip.py` CLI.  Constructors
carry the data the corresponding printed message interpolates. -/
inductive CliOutcome where
  /-- exit 1, "Error: Requested duration (`dur`s) exceeds buffer maximum
  (`statedMax`s)." — printed before any directory access. -/
  | rejectedTooLong (statedMax dur : Nat)
  /-- an uncaught Python exception (traceback, nonzero exit). -/
  | crash (exn : String)
  /-- exit 2, "Error: No available segment at or before requested start
  time." -/
  | noSegmentAtOrBefore
  /-- exit 2, "Error: Requested time is not in buffer window." -/
  | notInBuffer
  /-- exit 2, "Error: Requested time is not fully covered by buffer
  window." -/
  | notCovered
  /-- exit 2, "Error: Extracted clip is empty or too small. Likely requested
  time is not in buffer window." -/
  | tooSmall
  /-- clip extracted to `clip_<start>_<dur>s.mp4` (named by the effective
  start time) and uploaded. -/
  | success (start dur : Nat)
deriving DecidableEq

/-- `scripts/extract_clip.py:83-106`, the part of the CLI after the effective
start time is fixed: compute the needed segments, report an empty overlap or
a failed first/last coverage check (exit 2), otherwise call
`RollingBuffer.extract_clip` (an ffmpeg failure raises out of `__main__`
uncaught) and apply the 1024-byte output sanity check. -/
def cliAfterSnap (segs : List Nat) (segdur start dur : Nat)
    (ffmpegOk : Bool) (fileSize : Option Nat) : CliOutcome :=
  match neededSegments segs segdur start dur with
  | [] => .notInBuffer
  | first :: rest =>
    if start < first ∨ (first :: rest).getLastD 0 + segdur < start + dur then
      .notCovered
    else if ffmpegOk then
      match fileSize with
      | none => .tooSmall
      | some n => if n < 1024 then .tooSmall else .success start dur
    else .crash "RuntimeError: ffmpeg failed"

/-- `scripts/extract_clip.py` `__main__` (lines 40-106), for an
already-parsed request: the duration bound is checked first, before any
directory access (line 56); then the requested start is used as-is when it is
an existing segment start, and otherwise the snapping block runs — which on an
empty buffer evaluates `sorted_starts[0]` on an empty list and crashes with
`IndexError` (line 74).  `bufdur` is `RollingBuffer.buffer_duration` and
`segdur` is `RollingBuffer.segment_duration` (defaults 900 and 1). -/
def cliExtract (segs : List Nat) (segdur bufdur origStart dur : Nat)
    (ffmpegOk : Bool) (fileSize : Option Nat) : CliOutcome :=
  if bufdur < dur then .rejectedTooLong bufdur dur
  else if origStart ∈ segs then
    cliAfterSnap segs segdur origStart dur ffmpegOk fileSize
  else
    match List.insertionSort (· ≤ ·) segs with
    | [] => .crash "IndexError: list index out of range"
    | earliest :: _ =>
      match snapStart segs earliest segdur origStart with
      | none => .noSegmentAtOrBefore
      | some s => cliAfterSnap segs segdur s dur ffmpegOk fileSize

/-! ## Helper lemmas (shared) -/

lemma getLastD_cons_mem (a d : Nat) (l : List Nat) :
    (a :: l).getLastD d ∈ a :: l := by
  induction l generalizing a with
  | nil => simp
  | cons b t ih =>
    rw [List.getLastD_cons]
    exact List.mem_cons_of_mem a (ih b)

lemma needed_mem_spec {segs : List Nat} {segdur start dur s : Nat}
    (h : s ∈ neededSegments segs segdur start dur) :
    s ∈ segs ∧ start < s + segdur ∧ s < start + dur := by
  unfold neededSegments at h
  rw [List.mem_filter] at h
  obtain ⟨h1, h2⟩ := h
  rw [List.mem_insertionSort _] at h1
  simp only [decide_eq_true_eq] at h2
  exact ⟨h1, h2⟩

lemma cliAfterSnap_eq_of_coverage {segs : List Nat} {segdur start dur : Nat}
    (h : coverageOk segs segdur start dur = true) (ok : Bool)
    (size : Option Nat) :
    cliAfterSnap segs segdur start dur ok size =
      if ok then
        match size with
        | none => CliOutcome.tooSmall
        | some n => if n < 1024 then .tooSmall else .success start dur
      else .crash "RuntimeError: ffmpeg failed" := by
  unfold coverageOk at h
  unfold cliAfterSnap
  cases hn : neededSegments segs segdur start dur with
  | nil => rw [hn] at h; simp at h
  | cons first rest =>
    rw [hn] at h
    simp only [decide_eq_true_eq, List.getLastD_eq_getLast?] at h
    have hno : ¬ (start < first ∨
        ((first :: rest).getLast?.getD 0) + segdur < start + dur) := by omega
    simp [List.getLastD_eq_getLast?, hno]

/-! ## C3: retention violation rejected before any storage access -/

/-- C3: a request whose duration exceeds `bufferDuration` is rejected by
`scripts/extract_clip.py:56-58` with the configured maximum stated in the
message (the `rejectedTooLong` outcome carries it), and the outcome is the
same whatever the buffer directory contains and whatever the extraction
oracles would do — i.e. the rejection happens before any segment listing or
other storage I/O. -/
theorem c3_retention_rejected_before_io (segs : List Nat)
    (segdur bufdur origStart dur : Nat) (ok : Bool) (size : Option Nat)
    (h : bufdur < dur) :
    cliExtract segs segdur bufdur origStart dur ok size =
      .rejectedTooLong bufdur dur ∧
    ∀ (segs2 : List Nat) (ok2 : Bool) (size2 : Option Nat),
      cliExtract segs2 segdur bufdur origStart dur ok2 size2 =
        cliExtract segs segdur bufdur origStart dur ok size := by
  refine ⟨by simp [cliExtract, h], ?_⟩
  intro segs2 ok2 size2
  simp [cliExtract, h]

/-- Witness for C3, Scenario A: `bufferDuration = 600`, request
`duration = 601` is rejected with the maximum (600) stated, independently of
the segment set. -/
theorem c3_witness :
    cliExtract [0] 1 600 0 601 true (some 5000) = .rejectedTooLong 600 601 ∧
    ∀ (segs2 : List Nat) (ok2 : Bool) (size2 : Option Nat),
      cliExtract segs2 1 600 0 601 ok2 size2 =
        cliExtract [0] 1 600 0 601 true (some 5000) :=
  c3_retention_rejected_before_io [0] 1 600 0 601 true (some 5000)
    (by decide)

/-! ## C6: post-extraction size sanity check -/

/-- C6: when the coverage check passes and ffmpeg reports success, but the
output file is missing (`size = none`) or smaller than 1024 bytes, the CLI
(`scripts/extract_clip.py:103-105`, identically `src/extract_clip.py:124-126`)
reports the coverage-style error "Extracted clip is empty or too small.
Likely requested time is not in buffer window." (the `tooSmall` outcome,
exit 2) instead of succeeding. -/
theorem c6_size_sanity (segs : List Nat) (segdur start dur : Nat)
    (size : Option Nat) (hcov : coverageOk segs segdur start dur = true)
    (hsmall : ∀ n, size = some n → n < 1024) :
    cliAfterSnap segs segdur start dur true size = .tooSmall := by
  rw [cliAfterSnap_eq_of_coverage hcov true size]
  cases size with
  | none => simp
  | some n => simp [hsmall n rfl]

/-- Witness for C6: segments at 0 and 1 fully cover the window `[0, 2)`, the
concatenation succeeds, but the output is only 100 bytes, so the run fails
with the size-sanity error. -/
theorem c6_witness : cliAfterSnap [0, 1] 1 0 2 true (some 100) = .tooSmall :=
  c6_size_sanity [0, 1] 1 0 2 (some 100) (by decide)
    (fun n hn => by cases hn; decide)

/-! ## C9: ring-backed direct write -/

lemma writeHistoricalFrames_eq_filter (start endT : Nat)
    (ring : List (Nat × Nat)) :
    writeHistoricalFrames start endT ring =
      (ring.filter (fun tf => decide (start ≤ tf.1 ∧ tf.1 ≤ endT))).map
        Prod.snd := by
  induction ring with
  | nil => rfl
  | cons tf rest ih =>
    obtain ⟨t, f⟩ := tf
    by_cases h : start ≤ t ∧ t ≤ endT <;>
      simp [writeHistoricalFrames, h, ih]

/-- C9: when a current frame exists and the writer opens, the ring-backed
extraction (`StreamHandler.start_segment_recording` together with
`_write_historical_frames`) writes exactly the buffered frames whose
timestamp `t` satisfies `start ≤ t ≤ min endT now`, in ring (timestamp)
order; the effective end is `endT` clamped to `now`, and the one-time
clamp warning fires exactly when `endT` lies in the future. -/
theorem c9_ring_direct_write (ring : List (Nat × Nat)) (start endT now : Nat)
    (haveFrame writerOk : Bool) (hf : haveFrame = true)
    (hw : writerOk = true) :
    startSegmentRecording ring start endT now haveFrame writerOk =
      some ((ring.filter
          (fun tf => decide (start ≤ tf.1 ∧ tf.1 ≤ min endT now))).map
          Prod.snd,
        min endT now, decide (now < endT)) := by
  subst hf hw
  have hmin : (if now < endT then now else endT) = min endT now := by
    rw [Nat.min_def]; split <;> split <;> omega
  unfold startSegmentRecording
  simp only [hmin, writeHistoricalFrames_eq_filter]
  simp

/-- Witness for C9: ring frames at times 1, 2, 5; window `[2, 9]` with
`now = 4`: the future end 9 is clamped to 4 with a warning, and exactly the
frame at time 2 (id 20) is written. -/
theorem c9_witness :
    startSegmentRecording [(1, 10), (2, 20), (5, 50)] 2 9 4 true true =
      some ([20], 4, true) := by
  rw [c9_ring_direct_write [(1, 10), (2, 20), (5, 50)] 2 9 4 true true rfl
    rfl]
  decide

/-! ## C1: the coverage check does not detect internal gaps -/

/-- C1 counterexample: segments at 36120..36124 and 36126..36129 (one-second
segments, so second 36125 is a gap strictly inside the requested window
`[36120, 36130)`), request `start = 36120, duration = 10`: the CLI's coverage
check passes and extraction succeeds, although the claim says any gap
strictly inside the window makes the request fail with a partial-coverage
error. -/
theorem c1_counterexample :
    36125 ∉ [36120, 36121, 36122, 36123, 36124, 36126, 36127, 36128,
      36129] ∧
    36120 < 36125 ∧ 36125 + 1 ≤ 36120 + 10 ∧
    cliExtract
      [36120, 36121, 36122, 36123, 36124, 36126, 36127, 36128, 36129]
      1 900 36120 10 true (some 5000) = .success 36120 10 := by
  decide

/-- C1 amended: the coverage check (`scripts/extract_clip.py:96`, identically
`src/extract_clip.py:116`) only validates the two endpoints of the requested
window — some available segment's interval contains the window start, and
some available segment ends at or after the window end — and gaps strictly
inside the window are not examined; whenever the check passes, ffmpeg
succeeds and the output is at least 1024 bytes, the request succeeds.  In
particular Scenario D (segments for `[10:00:00, 10:05:00)` with a gap at
`10:02:30-10:02:35`, request `start = 10:02:00, duration = 10`) succeeds,
since its gap lies outside the requested window (see the witness). -/
theorem c1_amended_endpoint_coverage (segs : List Nat)
    (segdur start dur : Nat)
    (hcov : coverageOk segs segdur start dur = true) :
    ((∃ s ∈ segs, s ≤ start ∧ start < s + segdur) ∧
      (∃ s ∈ segs, s < start + dur ∧ start + dur ≤ s + segdur)) ∧
    ∀ n, 1024 ≤ n →
      cliAfterSnap segs segdur start dur true (some n) =
        .success start dur := by
  refine ⟨?_, ?_⟩
  · have h := hcov
    unfold coverageOk at h
    cases hn : neededSegments segs segdur start dur with
    | nil => rw [hn] at h; simp at h
    | cons first rest =>
      rw [hn] at h
      simp only [decide_eq_true_eq] at h
      have hfirst : first ∈ neededSegments segs segdur start dur := by
        rw [hn]; exact List.mem_cons_self first rest
      have hlastmem : (first :: rest).getLastD 0 ∈
          neededSegments segs segdur start dur := by
        rw [hn]; exact getLastD_cons_mem first 0 rest
      obtain ⟨hf1, hf2, _⟩ := needed_mem_spec hfirst
      obtain ⟨hl1, _, hl3⟩ := needed_mem_spec hlastmem
      exact ⟨⟨first, hf1, h.1, hf2⟩,
        ⟨(first :: rest).getLastD 0, hl1, hl3, h.2⟩⟩
  · intro n hn
    rw [cliAfterSnap_eq_of_coverage hcov true (some n)]
    simp [Nat.not_lt.mpr hn]

set_option maxRecDepth 100000 in
/-- Witness for C1 amended, Scenario D itself: one-second segments covering
`[10:00:00, 10:05:00)` as seconds-of-day `36000..36299`, except the gap
`10:02:30-10:02:35` (`36150..36154`); the request `start = 10:02:00`
(= 36120), `duration = 10` passes the endpoint coverage check and is
extracted successfully — the spec's Scenario D expects it to fail. -/
theorem c1_witness :
    (let segs := ((List.range 300).map (fun i => 36000 + i)).filter
      (fun t => !(decide (36150 ≤ t) && decide (t < 36155)))
    ((∃ s ∈ segs, s ≤ 36120 ∧ 36120 < s + 1) ∧
      (∃ s ∈ segs, s < 36120 + 10 ∧ 36120 + 10 ≤ s + 1)) ∧
    ∀ n, 1024 ≤ n →
      cliAfterSnap segs 1 36120 10 true (some n) = .success 36120 10) :=
  c1_amended_endpoint_coverage _ 1 36120 10 (by decide)

/-! ## C2: eviction keeps a duration budget, not an age bound -/

/-- C2 counterexample: a buffer holding a single one-second segment with
start time 0, `bufferDuration = 900`; the eviction pass keeps it (and deletes
nothing) no matter what "now" is — at `now = 902` the kept segment's age is
902, exceeding `bufferDuration + segmentDuration = 901`, so the claimed age
bound relative to now fails (the pass never consults the clock). -/
theorem c2_counterexample :
    cleanupPass [some 0] 1 900 = .ok ([0], []) ∧ 900 + 1 < 902 - 0 := by
  exact ⟨rfl, by decide⟩

lemma getSegmentTimes_map_some (times : List Nat) :
    getSegmentTimes (times.map some) = .ok times := by
  induction times with
  | nil => rfl
  | cons t rest ih => simp [getSegmentTimes, ih, Except.map]

lemma cleanupLoop_take_drop (segdur bufdur : Nat) (hs : 0 < segdur) :
    ∀ (rev : List Nat) (total : Nat),
      cleanupLoop segdur bufdur rev total =
        (rev.take ((bufdur - total) / segdur),
         rev.drop ((bufdur - total) / segdur)) := by
  intro rev
  induction rev with
  | nil => intro total; simp [cleanupLoop]
  | cons t rest ih =>
    intro total
    by_cases h : total + segdur ≤ bufdur
    · have ha : segdur ≤ bufdur - total := by omega
      have hsub : bufdur - total - segdur = bufdur - (total + segdur) := by
        omega
      have hk : (bufdur - total) / segdur =
          (bufdur - (total + segdur)) / segdur + 1 := by
        rw [Nat.div_eq (bufdur - total) segdur, if_pos ⟨hs, ha⟩, hsub]
      simp only [cleanupLoop, ih (total + segdur), if_pos h, hk,
        List.take_succ_cons, List.drop_succ_cons]
    · have hk : (bufdur - total) / segdur = 0 :=
        Nat.div_eq_of_lt (by omega)
      have hk2 : (bufdur - (total + segdur)) / segdur = 0 :=
        Nat.div_eq_of_lt (by omega)
      simp only [cleanupLoop, ih (total + segdur), if_neg h, hk, hk2,
        List.take_zero, List.drop_zero]

/-- C2 amended: `RollingBuffer._cleanup_old_segments` implements the
budget-based policy only — over any set of well-formed segments it keeps
exactly the newest `⌊bufferDuration / segmentDuration⌋` segment start times
and deletes all older ones, never consulting the current time.  Hence every
segment inside the most recent `bufferDuration` worth (counted at
`segmentDuration` nominal duration per segment) is kept, and any age bound
holds only relative to the newest segment, not relative to "now": when
capture stalls, arbitrarily old segments survive every pass (see the
counterexample). -/
theorem c2_amended_budget_eviction (times : List Nat) (segdur bufdur : Nat)
    (hs : 0 < segdur) :
    cleanupPass (times.map some) segdur bufdur =
      .ok (((List.insertionSort (· ≤ ·) times).reverse).take
            (bufdur / segdur),
          ((List.insertionSort (· ≤ ·) times).reverse).drop
            (bufdur / segdur)) := by
  unfold cleanupPass
  rw [getSegmentTimes_map_some]
  cases times with
  | nil =>
    simp only [Bind.bind, Except.bind, List.isEmpty_nil, if_true,
      List.insertionSort, List.reverse_nil, List.take_nil, List.drop_nil]
    rfl
  | cons t rest =>
    simp only [List.isEmpty_cons, Bind.bind, Except.bind, ite_false,
      Bool.false_eq_true]
    rw [cleanupLoop_take_drop segdur bufdur hs _ 0, Nat.sub_zero]
    rfl

set_option maxRecDepth 10000 in
/-- Witness for C2 amended: segments at 0, 1, 2, 3 with
`segmentDuration = 1`, `bufferDuration = 2`: the pass keeps the newest two
(3 and 2) and deletes 1 and 0. -/
theorem c2_witness :
    cleanupPass ([2, 0, 3, 1].map some) 1 2 = .ok ([3, 2], [1, 0]) := by
  rw [c2_amended_budget_eviction [2, 0, 3, 1] 1 2 (by decide)]
  rfl

/-! ## C4: the concat manifest is never cleaned up -/

/-- C4 counterexample: one segment at time 0 overlapping the window
`[0, 5)`; whether ffmpeg succeeds or fails, `RollingBuffer.extract_clip`
leaves `segments_to_concat.txt` in the buffer directory (the second
component `true`), although the claim says the manifest is removed after use
in both cases — the source (rolling_buffer.py:69-88) contains no removal at
all. -/
theorem c4_counterexample :
    rbExtractClip [some 0] 1 0 5 true = (.ok (0, 5), true) ∧
    rbExtractClip [some 0] 1 0 5 false = (.error "ffmpeg failed", true) :=
  ⟨rfl, rfl⟩

/-- C4 amended: whenever `RollingBuffer.extract_clip` finds at least one
overlapping segment, it writes the concat manifest and leaves it in place
after the run, both when the external tool succeeds and when it fails; the
manifest is never removed (it is only overwritten by the next extraction).
When no segment overlaps, the call raises before writing the manifest. -/
theorem c4_amended_manifest_left_behind (dir : List (Option Nat))
    (segdur start dur : Nat) (ok : Bool)
    (h : rbScan segdur start dur dir ≠ []) :
    (rbExtractClip dir segdur start dur ok).2 = true := by
  unfold rbExtractClip
  cases hn : rbScan segdur start dur dir with
  | nil => exact absurd hn h
  | cons a l => cases ok <;> simp

/-- Witness for C4 amended: the manifest remains on an ffmpeg failure. -/
theorem c4_witness : (rbExtractClip [some 3] 1 2 4 false).2 = true :=
  c4_amended_manifest_left_behind [some 3] 1 2 4 false (by decide)

/-! ## C5: empty buffer crashes the CLI instead of reporting the window -/

set_option maxRecDepth 10000 in
/-- C5 (code bug): with no segments in the buffer, `scripts/extract_clip.py`
reaches line 74 (`start_time >= sorted_starts[0]` with `sorted_starts = []`)
and raises an uncaught `IndexError` instead of printing "Requested time is
not in buffer window" with an empty available-window report as the claim
(and `RollingBuffer.extract_clip`'s own error message) intends.  Evaluated
here at the failing input: empty listing, request `start = 3600,
duration = 10`. -/
theorem c5_empty_buffer_crash :
    cliExtract [] 1 900 3600 10 true none =
      .crash "IndexError: list index out of range" := rfl

/-! ## C7: only extraction skips malformed filenames -/

/-- C7 counterexample: a directory containing a well-formed segment file and
one `segment_*.mp4` file whose timestamp does not parse:
`RollingBuffer.get_segment_times` (no `try`/`except` around `strptime`)
raises `ValueError`, and so does the eviction pass that calls it, although
the claim says every index operation skips the file and completes. -/
theorem c7_counterexample :
    getSegmentTimes [some 5, none] =
      .error "ValueError: time data does not match format" ∧
    cleanupPass [some 0, none] 1 900 =
      .error "ValueError: time data does not match format" :=
  ⟨rfl, rfl⟩

/-- C7 amended: only `RollingBuffer.extract_clip` skips malformed
`segment_*.mp4` names (its scan wraps the parse in `try`/`except`): its
result — outcome and manifest state alike — is unchanged when the malformed
entries are removed from the listing, and it completes without raising on
any listing.  `get_segment_times`, and therefore the eviction pass, instead
propagate the `ValueError` (see the counterexample). -/
theorem c7_amended_extraction_skips_malformed (dir : List (Option Nat))
    (segdur start dur : Nat) (ok : Bool) :
    rbExtractClip dir segdur start dur ok =
      rbExtractClip (dir.filter (fun e => e.isSome)) segdur start dur ok := by
  have hscan : ∀ d : List (Option Nat),
      rbScan segdur start dur d =
        rbScan segdur start dur (d.filter (fun e => e.isSome)) := by
    intro d
    induction d with
    | nil => rfl
    | cons e rest ih =>
      cases e with
      | none => simpa [rbScan] using ih
      | some t =>
        by_cases h : start < t + segdur ∧ t < start + dur <;>
          simp [rbScan, h, ih]
  unfold rbExtractClip
  rw [hscan dir]

/-! ## C8: cadence drift -/

/-- C8 counterexample: `segmentDuration = 1`; the first segment takes 3 time
units to write (an overrun), so segment 1 starts at time 3, not at
`1 * segmentDuration`: the per-segment sleep only pads short iterations and
never compensates overruns, so the claimed `N * segmentDuration` start time
fails and the error persists for every later segment. -/
theorem c8_counterexample :
    segmentStartAfter 1 [3] = 3 ∧ 3 ≠ 1 * 1 := by decide

/-- C8 amended: the sleep step keeps the cadence only as long as no iteration
overruns: if every per-iteration write time is at most `segmentDuration`,
then segment N starts exactly `N * segmentDuration` after stream start
(sub-duration jitter does not accumulate); an iteration that overruns shifts
every later segment start permanently (see the counterexample). -/
theorem c8_amended_no_drift_without_overrun (segdur : Nat)
    (elapseds : List Nat) (h : ∀ e ∈ elapseds, e ≤ segdur) :
    segmentStartAfter segdur elapseds = elapseds.length * segdur := by
  induction elapseds with
  | nil => simp [segmentStartAfter]
  | cons e rest ih =>
    have he : e ≤ segdur := h e (List.mem_cons_self e rest)
    have hr := ih (fun x hx => h x (List.mem_cons_of_mem e hx))
    have hite : (if e < segdur then segdur else e) = segdur := by
      split <;> omega
    rw [List.length_cons, Nat.succ_mul]
    unfold segmentStartAfter
    rw [hite, hr]
    exact Nat.add_comm segdur (rest.length * segdur)

/-- Witness for C8 amended: `segmentDuration = 2`, three iterations taking
2, 1 and 2 time units: segment 3 starts at `3 * 2 = 6`. -/
theorem c8_witness : segmentStartAfter 2 [2, 1, 2] = [2, 1, 2].length * 2 :=
  c8_amended_no_drift_without_overrun 2 [2, 1, 2] (by decide)

/-! ## C10: start-time snapping -/

set_option maxRecDepth 10000 in
/-- C10 counterexample: segments at 0..9 (one-second segments), request
`start = 100, duration = 10`: the start is at or after the earliest segment
and not equal to any segment start, so the claim says the request does not
fail — but after snapping to 9 the coverage check rejects the adjusted
window `[9, 19)` and the CLI exits with the not-fully-covered error. -/
theorem c10_counterexample :
    100 ∉ [0, 1, 2, 3, 4, 5, 6, 7, 8, 9] ∧
    (∃ s ∈ [0, 1, 2, 3, 4, 5, 6, 7, 8, 9], s ≤ 100) ∧
    cliExtract [0, 1, 2, 3, 4, 5, 6, 7, 8, 9] 1 900 100 10 true
      (some 5000) = .notCovered := by decide

lemma snapLoop_finds (set : List Nat) (earliest : Nat)
    (hmem : earliest ∈ set) :
    ∀ (fuel t : Nat), t < fuel → earliest ≤ t →
      ∃ s, snapLoop set earliest 1 fuel t = some s ∧ s ∈ set ∧ s ≤ t ∧
        ∀ x ∈ set, x ≤ t → x ≤ s := by
  intro fuel
  induction fuel with
  | zero => intro t ht; omega
  | succ f ih =>
    intro t ht hle
    by_cases hts : t ∈ set
    · exact ⟨t, by simp [snapLoop, hts], hts, Nat.le_refl t,
        fun x _ hx => hx⟩
    · have hlt : earliest < t :=
        Nat.lt_of_le_of_ne hle (fun h => hts (h ▸ hmem))
      obtain ⟨s, h1, h2, h3, h4⟩ := ih (t - 1) (by omega) (by omega)
      refine ⟨s, ?_, h2, by omega, ?_⟩
      · rw [show snapLoop set earliest 1 (f + 1) t =
            snapLoop set earliest 1 f (t - 1) by
          simp [snapLoop, hts, show ¬ t < earliest by omega]]
        exact h1
      · intro x hx hxt
        have hxne : x ≠ t := fun h => hts (h ▸ hx)
        exact h4 x hx (by omega)

/-- C10 amended: in the CLI path (`segmentDuration = 1`, second-resolution
timestamps), when the requested start is not an existing segment start but is
at or after the earliest one, the snapping loop never hits its own error
branch: the effective start becomes the latest existing segment start at or
before the requested time (reached by stepping back one `segmentDuration` at
a time), and the CLI silently continues from that earlier start — naming the
output after it — subject to the usual coverage checks on the adjusted
window, which can still reject the request (see the counterexample). -/
theorem c10_amended_snap_to_latest (segs : List Nat)
    (bufdur origStart dur : Nat) (ok : Bool) (size : Option Nat)
    (hnotin : origStart ∉ segs)
    (hafter : ∃ s ∈ segs, s ≤ origStart) (hdur : dur ≤ bufdur) :
    ∃ s, s ∈ segs ∧ s ≤ origStart ∧
      (∀ x ∈ segs, x ≤ origStart → x ≤ s) ∧
      cliExtract segs 1 bufdur origStart dur ok size =
        cliAfterSnap segs 1 s dur ok size := by
  obtain ⟨e, rest, heq⟩ : ∃ e rest,
      List.insertionSort (· ≤ ·) segs = e :: rest := by
    cases hs : List.insertionSort (· ≤ ·) segs with
    | nil =>
      obtain ⟨s0, hs0, _⟩ := hafter
      rw [← List.mem_insertionSort (· ≤ ·), hs] at hs0
      cases hs0
    | cons e rest => exact ⟨e, rest, rfl⟩
  have hemem : e ∈ segs := by
    rw [← List.mem_insertionSort (· ≤ ·), heq]
    exact List.mem_cons_self e rest
  have hemin : ∀ x ∈ segs, e ≤ x := by
    intro x hx
    rw [← List.mem_insertionSort (· ≤ ·) (l := segs), heq] at hx
    rcases hx with _ | hx
    · exact Nat.le_refl e
    · have hsorted := List.sorted_insertionSort (· ≤ ·) segs
      rw [heq] at hsorted
      exact List.rel_of_sorted_cons hsorted x (by assumption)
  have hele : e ≤ origStart := by
    obtain ⟨s0, hs0, hs0le⟩ := hafter
    exact Nat.le_trans (hemin s0 hs0) hs0le
  obtain ⟨s, h1, h2, h3, h4⟩ := snapLoop_finds segs e hemem
    (origStart + 1) origStart (Nat.lt_succ_self origStart) hele
  refine ⟨s, h2, h3, h4, ?_⟩
  unfold cliExtract
  rw [if_neg (by omega : ¬ bufdur < dur), if_neg hnotin, heq]
  show (match snapStart segs e 1 origStart with
    | none => CliOutcome.noSegmentAtOrBefore
    | some s => cliAfterSnap segs 1 s dur ok size) = _
  unfold snapStart
  rw [h1]

/-- Witness for C10 amended: segments at 3 and 7, request `start = 9,
duration = 2`: the effective start becomes 7, the latest segment start at or
before 9, and the CLI proceeds from it. -/
theorem c10_witness :
    ∃ s, s ∈ [3, 7] ∧ s ≤ 9 ∧ (∀ x ∈ [3, 7], x ≤ 9 → x ≤ s) ∧
      cliExtract [3, 7] 1 900 9 2 true (some 5000) =
        cliAfterSnap [3, 7] 1 s 2 true (some 5000) :=
  c10_amended_snap_to_latest [3, 7] 900 9 2 true (some 5000) (by decide)
    (by decide) (by decide)

end Caprid
